import Mathlib

/-!
Shallow embedding of the column-standardization layer of the `cook_county`
repository (`code/utils.py`, `code/sales.py`, `code/locations.py`).

A pandas cell value is modelled by `Val` (null / integer / string / boolean),
a pandas Series by `Series` (a dtype tag plus a list of cell values), and a
pandas DataFrame by `Frame` (an association list from column names to series).
Machine-level numeric dtypes (int64 vs Int64 vs float) are collapsed onto
`Val.vint`: every numeric value appearing in the claims is integer-valued and
no overflow-bearing arithmetic is performed by the code under study.
-/

/-- A single cell value of a pandas column: null (NaN / None / NA), an
integer-valued numeric, a string, or a boolean. -/
inductive Val where
  | vnull : Val
  | vint : Int → Val
  | vstr : String → Val
  | vbool : Bool → Val
deriving DecidableEq, Repr

/-- The dtype tag of a modelled pandas Series.  `categoryDt cats ordered`
carries the category list and the ordered flag of a pandas
`CategoricalDtype`. -/
inductive Dtype where
  | object : Dtype
  | int64Dt : Dtype
  | stringDt : Dtype
  | booleanDt : Dtype
  | categoryDt : List Val → Bool → Dtype
deriving DecidableEq, Repr

/-- A pandas Series: a dtype tag and the cell values in row order. -/
structure Series where
  dtype : Dtype
  vals : List Val
deriving DecidableEq, Repr

/-- A pandas DataFrame: an association list from column names to series. -/
structure Frame where
  cols : List (String × Series)
deriving DecidableEq, Repr

/-- Column assignment `df[c] = s`: replace the first binding of `c`
in place, or append a new column when `c` is absent. -/
def setCols : List (String × Series) → String → Series → List (String × Series)
  | [], c, s => [(c, s)]
  | (n, t) :: rest, c, s =>
    if n = c then (c, s) :: rest else (n, t) :: setCols rest c s

def Frame.set (df : Frame) (c : String) (s : Series) : Frame :=
  ⟨setCols df.cols c s⟩

/-- Column access `df[c]`.  A missing column raises a KeyError in pandas;
the model totalizes with an empty object series, and theorems about frame
transforms carry a `hasCol` hypothesis to stay on the faithful domain. -/
def Frame.get (df : Frame) (c : String) : Series :=
  match df.cols.lookup c with
  | some s => s
  | none => ⟨Dtype.object, []⟩

def Frame.hasCol (df : Frame) (c : String) : Bool :=
  (df.cols.lookup c).isSome

/-- `Series.unique()`: the distinct values of the column (kept only up to
membership, which is all the source uses it for). -/
def Series.uniqueVals (s : Series) : List Val :=
  s.vals.dedup

/-- `Series.isin(values)` followed by masked `.loc` assignment is how
`map_column_to_boolean_values` rewrites a column; `maskedAssign` models
`series.loc[mask] = newVal`. -/
def maskedAssign (vals : List Val) (mask : List Bool) (newVal : Val) : List Val :=
  List.zipWith (fun v m => if m then newVal else v) vals mask

/-- `utils.map_column_to_boolean_values(series, true_values)`:
copy the series, compute `true_mask = series.isin(true_values)`, return the
copy unchanged when the dtype is already boolean (`is_bool_dtype`; the
scalar check `is_bool(series)` is always false on a Series and is omitted),
otherwise assign `False` where the mask is false, `True` where it is true,
and cast with `astype("boolean")`. -/
def map_column_to_boolean_values (series : Series) (true_values : List Val) : Series :=
  let true_mask := series.vals.map (fun v => true_values.contains v)
  if series.dtype = Dtype.booleanDt then series
  else
    let vals1 := maskedAssign series.vals (true_mask.map (fun b => !b)) (Val.vbool false)
    let vals2 := maskedAssign vals1 true_mask (Val.vbool true)
    ⟨Dtype.booleanDt, vals2⟩

/-- `utils.typeset_simple_boolean_columns(df, boolean_columns)`: apply
`map_column_to_boolean_values` with `true_values=[1]` to each listed column,
mutating the frame left to right. -/
def typeset_simple_boolean_columns (df : Frame) (boolean_columns : List String) : Frame :=
  boolean_columns.foldl
    (fun d c => d.set c (map_column_to_boolean_values (d.get c) [Val.vint 1])) df

lemma maskedAssign_twice (vals : List Val) (p : Val → Bool) :
    maskedAssign (maskedAssign vals (vals.map (fun v => !(p v))) (Val.vbool false))
      (vals.map p) (Val.vbool true) = vals.map (fun v => Val.vbool (p v)) := by
  induction vals with
  | nil => rfl
  | cons v vs ih =>
    simp only [List.map_cons, maskedAssign, List.zipWith_cons_cons] at *
    cases h : p v <;> simp [h, ih]

lemma map_column_to_boolean_values_bool_guard (s : Series) (tv : List Val)
    (h : s.dtype = Dtype.booleanDt) : map_column_to_boolean_values s tv = s := by
  simp only [map_column_to_boolean_values, h, if_true]

/-- C1 (counterexample): with true-set `{1}`, the input column
`[1, 0, null, 1]` is mapped to `[true, false, false, true]`: the null input
does NOT remain null (the masked assignment `series.loc[~true_mask] = False`
overwrites it), contradicting the claimed output `[true, false, null, true]`. -/
theorem C1_boolean_normalization_counterexample :
    (map_column_to_boolean_values ⟨Dtype.int64Dt, [Val.vint 1, Val.vint 0, Val.vnull, Val.vint 1]⟩
        [Val.vint 1]).vals
      = [Val.vbool true, Val.vbool false, Val.vbool false, Val.vbool true] ∧
    (map_column_to_boolean_values ⟨Dtype.int64Dt, [Val.vint 1, Val.vint 0, Val.vnull, Val.vint 1]⟩
        [Val.vint 1]).vals
      ≠ [Val.vbool true, Val.vbool false, Val.vnull, Val.vbool true] := by
  constructor
  · rfl
  · decide

/-- C1 (amended): for every non-boolean-dtype input column and caller-supplied
true-set, boolean-flag normalization returns a boolean column in which values
in the true-set become true and ALL other values — null inputs included —
become false; `typeset_simple_boolean_columns` applies exactly this transform
with true-set `{1}` to a single listed column. -/
theorem C1_boolean_normalization_amended (s : Series) (tv : List Val)
    (df : Frame) (c : String) (h : s.dtype ≠ Dtype.booleanDt) :
    map_column_to_boolean_values s tv
        = ⟨Dtype.booleanDt, s.vals.map (fun v => Val.vbool (tv.contains v))⟩ ∧
    typeset_simple_boolean_columns df [c]
        = df.set c (map_column_to_boolean_values (df.get c) [Val.vint 1]) := by
  constructor
  · simp only [map_column_to_boolean_values, if_neg h, List.map_map]
    exact congrArg (Series.mk Dtype.booleanDt)
      (maskedAssign_twice s.vals (fun v => tv.contains v))
  · rfl

/-- C1 (witness): instance of the amended theorem at the concrete column
`[1, 0, null, 1]` with true-set `{1}`. -/
theorem C1_boolean_normalization_amended_witness :
    map_column_to_boolean_values ⟨Dtype.int64Dt, [Val.vint 1, Val.vint 0, Val.vnull, Val.vint 1]⟩
        [Val.vint 1]
      = ⟨Dtype.booleanDt,
          [Val.vbool true, Val.vbool false, Val.vbool false, Val.vbool true]⟩ ∧
    typeset_simple_boolean_columns ⟨[("floodplain", ⟨Dtype.int64Dt, [Val.vint 0]⟩)]⟩ ["floodplain"]
      = Frame.set ⟨[("floodplain", ⟨Dtype.int64Dt, [Val.vint 0]⟩)]⟩ "floodplain"
          (map_column_to_boolean_values
            (Frame.get ⟨[("floodplain", ⟨Dtype.int64Dt, [Val.vint 0]⟩)]⟩ "floodplain")
            [Val.vint 1]) :=
  ⟨(C1_boolean_normalization_amended
      ⟨Dtype.int64Dt, [Val.vint 1, Val.vint 0, Val.vnull, Val.vint 1]⟩ [Val.vint 1]
      ⟨[("floodplain", ⟨Dtype.int64Dt, [Val.vint 0]⟩)]⟩ "floodplain" (by decide)).1,
   (C1_boolean_normalization_amended ⟨Dtype.int64Dt, []⟩ []
      ⟨[("floodplain", ⟨Dtype.int64Dt, [Val.vint 0]⟩)]⟩ "floodplain" (by decide)).2⟩

/-- C10: if the input series already has boolean dtype,
`map_column_to_boolean_values` returns it unchanged for every true-set (the
dtype guard fires before any value is modified), and consequently applying
the normalization to its own output is the identity. -/
theorem C10_boolean_dtype_guard_idempotent (s : Series) (tv : List Val) :
    (s.dtype = Dtype.booleanDt → map_column_to_boolean_values s tv = s) ∧
    map_column_to_boolean_values (map_column_to_boolean_values s tv) tv
      = map_column_to_boolean_values s tv := by
  constructor
  · exact map_column_to_boolean_values_bool_guard s tv
  · by_cases h : s.dtype = Dtype.booleanDt
    · rw [map_column_to_boolean_values_bool_guard s tv h]
      exact map_column_to_boolean_values_bool_guard s tv h
    · have hout : (map_column_to_boolean_values s tv).dtype = Dtype.booleanDt := by
        simp only [map_column_to_boolean_values, if_neg h]
      exact map_column_to_boolean_values_bool_guard _ tv hout

/-- C10 (witness): a boolean-dtype column `[true, null]` is returned
unchanged, and re-normalizing a freshly normalized column is a no-op. -/
theorem C10_boolean_dtype_guard_idempotent_witness :
    map_column_to_boolean_values ⟨Dtype.booleanDt, [Val.vbool true, Val.vnull]⟩ [Val.vint 1]
      = ⟨Dtype.booleanDt, [Val.vbool true, Val.vnull]⟩ ∧
    map_column_to_boolean_values
        (map_column_to_boolean_values ⟨Dtype.int64Dt, [Val.vint 1, Val.vint 0]⟩ [Val.vint 1])
        [Val.vint 1]
      = map_column_to_boolean_values ⟨Dtype.int64Dt, [Val.vint 1, Val.vint 0]⟩ [Val.vint 1] :=
  ⟨(C10_boolean_dtype_guard_idempotent ⟨Dtype.booleanDt, [Val.vbool true, Val.vnull]⟩
      [Val.vint 1]).1 rfl,
   (C10_boolean_dtype_guard_idempotent ⟨Dtype.int64Dt, [Val.vint 1, Val.vint 0]⟩ [Val.vint 1]).2⟩

/-- Total ordering used by numpy when `astype("category")` sorts the distinct
values of a column into the category list.  Only homogeneous columns (all
strings, or all integers) are ever sorted by the source. -/
def valRank : Val → Nat
  | Val.vnull => 0
  | Val.vbool _ => 1
  | Val.vint _ => 2
  | Val.vstr _ => 3

/-- Lexicographic comparison of strings by code point, as numpy sorting
compares them. -/
def strLtB : List Char → List Char → Bool
  | [], [] => false
  | [], _ :: _ => true
  | _ :: _, [] => false
  | a :: as, b :: bs =>
    if a.toNat < b.toNat then true
    else if b.toNat < a.toNat then false
    else strLtB as bs

def valLe : Val → Val → Bool
  | Val.vint a, Val.vint b => decide (a ≤ b)
  | Val.vstr a, Val.vstr b => !(strLtB b.data a.data)
  | Val.vbool a, Val.vbool b => !a || b
  | a, b => decide (valRank a ≤ valRank b)

def insertLe (v : Val) : List Val → List Val
  | [] => [v]
  | w :: ws => if valLe v w then v :: w :: ws else w :: insertLe v ws

def sortVals (vs : List Val) : List Val :=
  vs.foldr insertLe []

/-- The category list pandas computes for `astype("category")` on a
non-categorical column: the distinct non-null values in sorted order. -/
def sortedUnique (vs : List Val) : List Val :=
  sortVals ((vs.filter (fun v => v ≠ Val.vnull)).dedup)

/-- `series.astype("category")`: a no-op on an already-categorical series
(existing categories and orderedness are kept); otherwise an unordered
categorical whose categories are the sorted distinct non-null values. -/
def astypeCategory (s : Series) : Series :=
  match s.dtype with
  | Dtype.categoryDt _ _ => s
  | _ => ⟨Dtype.categoryDt (sortedUnique s.vals) false, s.vals⟩

/-- `series.astype(CategoricalDtype(categories=cats, ordered=ordered))`:
the category list and orderedness are taken from the dtype, and every value
not in the category list becomes null. -/
def astypeCatDtype (cats : List Val) (ordered : Bool) (s : Series) : Series :=
  ⟨Dtype.categoryDt cats ordered, s.vals.map (fun v => if cats.contains v then v else Val.vnull)⟩

/-- `series.map(dict)`: each value is replaced by its image under the dict,
and values missing from the dict (nulls included) become null. -/
def seriesMapDict (s : Series) (m : List (Val × Val)) : Series :=
  ⟨Dtype.object, s.vals.map (fun v =>
    match m.lookup v with
    | some l => l
    | none => Val.vnull)⟩

/-- The `arms_length_map` dict of
`sales.preprocess_property_sales_arms_length_values`. -/
def arms_length_map : List (Val × Val) :=
  [(Val.vint 0, Val.vstr "no"), (Val.vint 1, Val.vstr "yes"), (Val.vint 9, Val.vstr "unknown")]

/-- `sales.preprocess_property_sales_arms_length_values(df)`: if any target
label is absent from `df["arms_length"].unique()`, remap the column through
`arms_length_map`; then cast the column with `astype("category")`. -/
def preprocess_property_sales_arms_length_values (df : Frame) : Frame :=
  let categories := arms_length_map.map Prod.snd
  let col := df.get "arms_length"
  let col :=
    if categories.any (fun cat => !(col.uniqueVals.contains cat)) then
      seriesMapDict col arms_length_map
    else col
  df.set "arms_length" (astypeCategory col)

/-- The `deed_type_map` dict of
`sales.preprocess_property_sales_deed_type_values` (`list(dict.values())`
yields one entry per key, duplicates included). -/
def deed_type_map : List (Val × Val) :=
  [(Val.vstr "W", Val.vstr "Warranty"), (Val.vstr "O", Val.vstr "Other"),
   (Val.vstr "o", Val.vstr "Other"), (Val.vstr "T", Val.vstr "Trustee"),
   (Val.vstr "Y", Val.vstr "Trustee")]

/-- `sales.preprocess_property_sales_deed_type_values(df)`: same guard-then-
remap-then-`astype("category")` shape as the arms-length transform. -/
def preprocess_property_sales_deed_type_values (df : Frame) : Frame :=
  let categories := deed_type_map.map Prod.snd
  let col := df.get "deed_type"
  let col :=
    if categories.any (fun cat => !(col.uniqueVals.contains cat)) then
      seriesMapDict col deed_type_map
    else col
  df.set "deed_type" (astypeCategory col)

/-- The `flood_risk_map` dict of
`locations.typeset_ordered_categorical_fs_flood_risk_direction_feature`. -/
def flood_risk_map : List (Val × Val) :=
  [(Val.vint (-1), Val.vstr "risk_decreasing"), (Val.vint 0, Val.vstr "risk_stationary"),
   (Val.vint 1, Val.vstr "risk_increasing")]

/-- `locations.typeset_ordered_categorical_fs_flood_risk_direction_feature(df)`:
guarded remap through `flood_risk_map`, then a cast to the explicit ordered
`CategoricalDtype` over the three labels in dict order. -/
def typeset_ordered_categorical_fs_flood_risk_direction_feature (df : Frame) : Frame :=
  let categories := flood_risk_map.map Prod.snd
  let col := df.get "fs_flood_risk_direction"
  let col :=
    if categories.any (fun cat => !(col.uniqueVals.contains cat)) then
      seriesMapDict col flood_risk_map
    else col
  df.set "fs_flood_risk_direction" (astypeCatDtype categories true col)

/-- The explicit ordered domain `CategoricalDtype(categories=[1,...,10],
ordered=True)` of `locations.typeset_ordered_categorical_fs_flood_factor_feature`. -/
def flood_factor_risk_categories : List Val :=
  [Val.vint 1, Val.vint 2, Val.vint 3, Val.vint 4, Val.vint 5,
   Val.vint 6, Val.vint 7, Val.vint 8, Val.vint 9, Val.vint 10]

/-- `locations.typeset_ordered_categorical_fs_flood_factor_feature(df)`: cast
`df["fs_flood_factor"]` to the explicit ordered 1..10 `CategoricalDtype`. -/
def typeset_ordered_categorical_fs_flood_factor_feature (df : Frame) : Frame :=
  df.set "fs_flood_factor"
    (astypeCatDtype flood_factor_risk_categories true (df.get "fs_flood_factor"))

lemma lookup_setCols_self (l : List (String × Series)) (c : String) (s : Series) :
    (setCols l c s).lookup c = some s := by
  induction l with
  | nil => simp [setCols, List.lookup]
  | cons p rest ih =>
    obtain ⟨n, t⟩ := p
    by_cases h : n = c
    · simp [setCols, h, List.lookup]
    · simp only [setCols, if_neg h, List.lookup]
      have : (c == n) = false := by
        simp [beq_eq_false_iff_ne]
        exact fun hc => h hc.symm
      simp [this, ih]

lemma setCols_setCols_self (l : List (String × Series)) (c : String) (s t : Series) :
    setCols (setCols l c s) c t = setCols l c t := by
  induction l with
  | nil => simp [setCols]
  | cons p rest ih =>
    obtain ⟨n, u⟩ := p
    by_cases h : n = c
    · simp [setCols, h]
    · simp [setCols, if_neg h, ih]

lemma frame_get_set_self (df : Frame) (c : String) (s : Series) :
    (df.set c s).get c = s := by
  simp [Frame.get, Frame.set, lookup_setCols_self]

lemma frame_set_set_self (df : Frame) (c : String) (s t : Series) :
    (df.set c s).set c t = df.set c t := by
  simp [Frame.set, setCols_setCols_self]

lemma astypeCategory_idem (s : Series) :
    astypeCategory (astypeCategory s) = astypeCategory s := by
  cases h : s.dtype <;> simp [astypeCategory, h]

lemma astypeCatDtype_idem (cats : List Val) (o : Bool) (s : Series)
    (h : cats.contains Val.vnull = false) :
    astypeCatDtype cats o (astypeCatDtype cats o s) = astypeCatDtype cats o s := by
  simp only [astypeCatDtype, List.map_map, Series.mk.injEq, true_and]
  apply List.map_congr_left
  intro v _
  have hnull : Val.vnull ∉ cats := by simpa using h
  by_cases hv : v ∈ cats
  · simp [hv]
  · simp [hv, hnull]

/-- The guard-remap-`astype("category")` pattern shared verbatim by the
arms-length and deed-type transforms, abstracted over the column name and
the code-to-label dict. -/
def guardedRemapThenCategory (c : String) (m : List (Val × Val)) (df : Frame) : Frame :=
  let categories := m.map Prod.snd
  let col := df.get c
  let col :=
    if categories.any (fun cat => !(col.uniqueVals.contains cat)) then
      seriesMapDict col m
    else col
  df.set c (astypeCategory col)

/-- The guard-remap-explicit-ordered-dtype pattern of the flood-risk-direction
transform, abstracted the same way. -/
def guardedRemapThenCatDtype (c : String) (m : List (Val × Val)) (df : Frame) : Frame :=
  let categories := m.map Prod.snd
  let col := df.get c
  let col :=
    if categories.any (fun cat => !(col.uniqueVals.contains cat)) then
      seriesMapDict col m
    else col
  df.set c (astypeCatDtype categories true col)

lemma arms_length_is_guardedRemap :
    preprocess_property_sales_arms_length_values
      = guardedRemapThenCategory "arms_length" arms_length_map := rfl

lemma deed_type_is_guardedRemap :
    preprocess_property_sales_deed_type_values
      = guardedRemapThenCategory "deed_type" deed_type_map := rfl

lemma flood_direction_is_guardedRemap :
    typeset_ordered_categorical_fs_flood_risk_direction_feature
      = guardedRemapThenCatDtype "fs_flood_risk_direction" flood_risk_map := rfl

lemma uniqueVals_contains_of_mem {s : Series} {v : Val} (h : v ∈ s.vals) :
    s.uniqueVals.contains v = true := by
  simp [Series.uniqueVals, List.mem_dedup, h]

lemma second_guard_false (c : String) (m : List (Val × Val)) (out : Frame)
    (H : (m.map Prod.snd).all (fun cat => (out.get c).vals.contains cat) = true) :
    (m.map Prod.snd).any (fun cat => !((out.get c).uniqueVals.contains cat)) = false := by
  rw [List.any_eq_false]
  intro cat hcat
  have hc := List.all_eq_true.mp H cat hcat
  have hmem : cat ∈ (out.get c).vals := by simpa using hc
  simp [Series.uniqueVals, List.mem_dedup, hmem]

lemma guardedRemapThenCategory_idem (c : String) (m : List (Val × Val)) (df : Frame)
    (H : (m.map Prod.snd).all
        (fun cat => ((guardedRemapThenCategory c m df).get c).vals.contains cat) = true) :
    guardedRemapThenCategory c m (guardedRemapThenCategory c m df)
      = guardedRemapThenCategory c m df := by
  have hguard := second_guard_false c m (guardedRemapThenCategory c m df) H
  conv_lhs => rw [guardedRemapThenCategory]
  simp only [hguard, Bool.false_eq_true, if_false]
  have hget : (guardedRemapThenCategory c m df).get c
      = astypeCategory (if (m.map Prod.snd).any
            (fun cat => !((df.get c).uniqueVals.contains cat)) then
          seriesMapDict (df.get c) m
        else df.get c) := by
    rw [guardedRemapThenCategory]
    exact frame_get_set_self df c _
  rw [hget, astypeCategory_idem]
  rw [guardedRemapThenCategory]
  exact frame_set_set_self df c _ _

lemma guardedRemapThenCatDtype_idem (c : String) (m : List (Val × Val)) (df : Frame)
    (hnull : (m.map Prod.snd).contains Val.vnull = false)
    (H : (m.map Prod.snd).all
        (fun cat => ((guardedRemapThenCatDtype c m df).get c).vals.contains cat) = true) :
    guardedRemapThenCatDtype c m (guardedRemapThenCatDtype c m df)
      = guardedRemapThenCatDtype c m df := by
  have hguard := second_guard_false c m (guardedRemapThenCatDtype c m df) H
  conv_lhs => rw [guardedRemapThenCatDtype]
  simp only [hguard, Bool.false_eq_true, if_false]
  have hget : (guardedRemapThenCatDtype c m df).get c
      = astypeCatDtype (m.map Prod.snd) true (if (m.map Prod.snd).any
            (fun cat => !((df.get c).uniqueVals.contains cat)) then
          seriesMapDict (df.get c) m
        else df.get c) := by
    rw [guardedRemapThenCatDtype]
    exact frame_get_set_self df c _
  rw [hget, astypeCatDtype_idem _ _ _ hnull]
  rw [guardedRemapThenCatDtype]
  exact frame_set_set_self df c _ _

/-- C2 (counterexample): on the one-row table with raw `arms_length` code
`[0]`, one application of the arms-length transform yields the label column
`["no"]`, but since the labels "yes" and "unknown" are absent the presence
guard fires AGAIN on the second application, which remaps the label "no"
(not a dict key) to null: running the transform twice differs from running
it once, so the guard does not make repeated application idempotent for all
inputs. -/
theorem C2_remap_guard_counterexample :
    preprocess_property_sales_arms_length_values
        (preprocess_property_sales_arms_length_values
          ⟨[("arms_length", ⟨Dtype.int64Dt, [Val.vint 0]⟩)]⟩)
      ≠ preprocess_property_sales_arms_length_values
          ⟨[("arms_length", ⟨Dtype.int64Dt, [Val.vint 0]⟩)]⟩ := by
  decide

/-- C2 (amended): a code-to-label remapping step (arms-length, deed-type, or
flood-risk-direction) applied twice yields the same result as applied once
PROVIDED every target label is present in the remapped column after the
first application (which is exactly when the presence guard stays quiet on
the second run); without that proviso idempotence fails. -/
theorem C2_remap_idempotent_amended (df1 df2 df3 : Frame) :
    ((arms_length_map.map Prod.snd).all
        (fun cat => ((preprocess_property_sales_arms_length_values df1).get
          "arms_length").vals.contains cat) = true →
      preprocess_property_sales_arms_length_values
          (preprocess_property_sales_arms_length_values df1)
        = preprocess_property_sales_arms_length_values df1) ∧
    ((deed_type_map.map Prod.snd).all
        (fun cat => ((preprocess_property_sales_deed_type_values df2).get
          "deed_type").vals.contains cat) = true →
      preprocess_property_sales_deed_type_values
          (preprocess_property_sales_deed_type_values df2)
        = preprocess_property_sales_deed_type_values df2) ∧
    ((flood_risk_map.map Prod.snd).all
        (fun cat => ((typeset_ordered_categorical_fs_flood_risk_direction_feature df3).get
          "fs_flood_risk_direction").vals.contains cat) = true →
      typeset_ordered_categorical_fs_flood_risk_direction_feature
          (typeset_ordered_categorical_fs_flood_risk_direction_feature df3)
        = typeset_ordered_categorical_fs_flood_risk_direction_feature df3) := by
  refine ⟨?_, ?_, ?_⟩
  · intro H
    rw [arms_length_is_guardedRemap] at *
    exact guardedRemapThenCategory_idem "arms_length" arms_length_map df1 H
  · intro H
    rw [deed_type_is_guardedRemap] at *
    exact guardedRemapThenCategory_idem "deed_type" deed_type_map df2 H
  · intro H
    rw [flood_direction_is_guardedRemap] at *
    exact guardedRemapThenCatDtype_idem "fs_flood_risk_direction" flood_risk_map df3
      (by decide) H

/-- C2 (witness): instances of the amended theorem on concrete tables that
contain every raw code, so every label is present after one application. -/
theorem C2_remap_idempotent_amended_witness :
    preprocess_property_sales_arms_length_values
        (preprocess_property_sales_arms_length_values
          ⟨[("arms_length", ⟨Dtype.int64Dt, [Val.vint 0, Val.vint 1, Val.vint 9]⟩)]⟩)
      = preprocess_property_sales_arms_length_values
          ⟨[("arms_length", ⟨Dtype.int64Dt, [Val.vint 0, Val.vint 1, Val.vint 9]⟩)]⟩ ∧
    preprocess_property_sales_deed_type_values
        (preprocess_property_sales_deed_type_values
          ⟨[("deed_type", ⟨Dtype.object,
              [Val.vstr "W", Val.vstr "O", Val.vstr "o", Val.vstr "T", Val.vstr "Y"]⟩)]⟩)
      = preprocess_property_sales_deed_type_values
          ⟨[("deed_type", ⟨Dtype.object,
              [Val.vstr "W", Val.vstr "O", Val.vstr "o", Val.vstr "T", Val.vstr "Y"]⟩)]⟩ ∧
    typeset_ordered_categorical_fs_flood_risk_direction_feature
        (typeset_ordered_categorical_fs_flood_risk_direction_feature
          ⟨[("fs_flood_risk_direction",
              ⟨Dtype.int64Dt, [Val.vint (-1), Val.vint 0, Val.vint 1]⟩)]⟩)
      = typeset_ordered_categorical_fs_flood_risk_direction_feature
          ⟨[("fs_flood_risk_direction",
              ⟨Dtype.int64Dt, [Val.vint (-1), Val.vint 0, Val.vint 1]⟩)]⟩ :=
  ⟨(C2_remap_idempotent_amended
      ⟨[("arms_length", ⟨Dtype.int64Dt, [Val.vint 0, Val.vint 1, Val.vint 9]⟩)]⟩
      ⟨[]⟩ ⟨[]⟩).1 (by decide),
   (C2_remap_idempotent_amended ⟨[]⟩
      ⟨[("deed_type", ⟨Dtype.object,
          [Val.vstr "W", Val.vstr "O", Val.vstr "o", Val.vstr "T", Val.vstr "Y"]⟩)]⟩
      ⟨[]⟩).2.1 (by decide),
   (C2_remap_idempotent_amended ⟨[]⟩ ⟨[]⟩
      ⟨[("fs_flood_risk_direction",
          ⟨Dtype.int64Dt, [Val.vint (-1), Val.vint 0, Val.vint 1]⟩)]⟩).2.2 (by decide)⟩

/-- C5 (counterexample): on the column of raw codes `[0, 1, 9]` the
arms-length transform does produce the labels `["no", "yes", "unknown"]`,
but `astype("category")` types the result as an UNORDERED category with
lexicographically sorted categories, not as an ordered-insertion category
`["no", "yes", "unknown"]` as claimed. -/
theorem C5_arms_length_typing_counterexample :
    ((preprocess_property_sales_arms_length_values
        ⟨[("arms_length", ⟨Dtype.int64Dt, [Val.vint 0, Val.vint 1, Val.vint 9]⟩)]⟩).get
        "arms_length").vals
      = [Val.vstr "no", Val.vstr "yes", Val.vstr "unknown"] ∧
    ((preprocess_property_sales_arms_length_values
        ⟨[("arms_length", ⟨Dtype.int64Dt, [Val.vint 0, Val.vint 1, Val.vint 9]⟩)]⟩).get
        "arms_length").dtype
      ≠ Dtype.categoryDt [Val.vstr "no", Val.vstr "yes", Val.vstr "unknown"] true := by
  constructor
  · rfl
  · decide

/-- C5 (amended): the arms-length remap sends raw codes 0, 1, 9 to the labels
"no", "yes", "unknown" respectively, and `astype("category")` types the
resulting column as an UNORDERED category whose category list is the sorted
distinct labels `["no", "unknown", "yes"]` — not the dict insertion order. -/
theorem C5_arms_length_remap_amended :
    (preprocess_property_sales_arms_length_values
        ⟨[("arms_length", ⟨Dtype.int64Dt, [Val.vint 0, Val.vint 1, Val.vint 9]⟩)]⟩).get
        "arms_length"
      = ⟨Dtype.categoryDt [Val.vstr "no", Val.vstr "unknown", Val.vstr "yes"] false,
          [Val.vstr "no", Val.vstr "yes", Val.vstr "unknown"]⟩ := by
  decide

/-- C6: the flood-severity transform casts `fs_flood_factor` to the explicit
ordered `CategoricalDtype` whose category list is 1..10 ascending, and every
value outside that domain (nulls included) becomes null while in-domain
values are kept. -/
theorem C6_flood_factor_explicit_domain (df : Frame)
    (h : df.hasCol "fs_flood_factor" = true) :
    (typeset_ordered_categorical_fs_flood_factor_feature df).get "fs_flood_factor"
      = ⟨Dtype.categoryDt flood_factor_risk_categories true,
          (df.get "fs_flood_factor").vals.map
            (fun v => if flood_factor_risk_categories.contains v then v else Val.vnull)⟩ := by
  rw [typeset_ordered_categorical_fs_flood_factor_feature, frame_get_set_self]
  rfl

/-- C6 (witness): on the concrete column `[5, 11, null, 0]` the in-domain
value 5 is kept and 11, null and 0 are rejected to null, with the ordered
1..10 category list assigned. -/
theorem C6_flood_factor_explicit_domain_witness :
    (typeset_ordered_categorical_fs_flood_factor_feature
        ⟨[("fs_flood_factor",
            ⟨Dtype.int64Dt, [Val.vint 5, Val.vint 11, Val.vnull, Val.vint 0]⟩)]⟩).get
        "fs_flood_factor"
      = ⟨Dtype.categoryDt flood_factor_risk_categories true,
          [Val.vint 5, Val.vnull, Val.vnull, Val.vnull]⟩ :=
  (C6_flood_factor_explicit_domain
      ⟨[("fs_flood_factor",
          ⟨Dtype.int64Dt, [Val.vint 5, Val.vint 11, Val.vnull, Val.vint 0]⟩)]⟩
      (by decide)).trans (by decide)

/-- The character scan performed by `str.replace("-", "")` on one string:
every occurrence of the one-character pattern is replaced by the empty
string, all other characters are kept in order. -/
def replaceDashChars : List Char → List Char
  | [] => []
  | c :: rest => if c = '-' then replaceDashChars rest else c :: replaceDashChars rest

def strReplaceDash (s : String) : String :=
  String.mk (replaceDashChars s.data)

/-- One cell of `series.str.replace("-", "")`: string cells are rewritten,
non-string cells (nulls in particular) come out null. -/
def strReplaceDashCell : Val → Val
  | Val.vstr s => Val.vstr (strReplaceDash s)
  | _ => Val.vnull

/-- `sales.preprocess_pin_numbers(df)`:
`df["pin"] = df["pin"].str.replace("-", "")`. -/
def preprocess_pin_numbers (df : Frame) : Frame :=
  df.set "pin" ⟨Dtype.object, (df.get "pin").vals.map strReplaceDashCell⟩

lemma replaceDashChars_eq_filter (l : List Char) :
    replaceDashChars l = l.filter (fun c => c ≠ '-') := by
  induction l with
  | nil => rfl
  | cons c rest ih =>
    by_cases h : c = '-' <;> simp [replaceDashChars, List.filter, h, ih]

/-- C4 (counterexample): stripping the dashes from "12-34-567-890-0000"
yields the 14-character string "12345678900000" (the digit content, a
14-digit pin, unchanged), not the claimed 13-character "1234567890000",
which drops one of the digits. -/
theorem C4_pin_dash_stripping_counterexample :
    strReplaceDash "12-34-567-890-0000" = "12345678900000" ∧
    strReplaceDash "12-34-567-890-0000" ≠ "1234567890000" := by
  constructor
  · decide
  · decide

/-- C4 (amended): parcel-identifier dash-stripping maps
"12-34-567-890-0000" to "12345678900000" (not "1234567890000": the claimed
output dropped a digit), leaving the digit content unchanged; in general,
for every pin string it removes exactly the dash characters and preserves
every other character in order (the result is the dash-free sublist of the
characters), and null pin cells stay null. -/
theorem C4_pin_dash_stripping (df : Frame) (s : String)
    (h : df.hasCol "pin" = true) :
    ((preprocess_pin_numbers df).get "pin").vals
        = (df.get "pin").vals.map strReplaceDashCell ∧
    (strReplaceDash s).data = s.data.filter (fun c => c ≠ '-') ∧
    strReplaceDash "12-34-567-890-0000" = "12345678900000" := by
  refine ⟨?_, ?_, ?_⟩
  · rw [preprocess_pin_numbers, frame_get_set_self]
  · exact replaceDashChars_eq_filter s.data
  · decide

/-- C4 (witness): instance on a one-column table holding the claimed pin
string and a null, evaluated to its concrete output. -/
theorem C4_pin_dash_stripping_witness :
    ((preprocess_pin_numbers
        ⟨[("pin", ⟨Dtype.object, [Val.vstr "12-34-567-890-0000", Val.vnull]⟩)]⟩).get
        "pin").vals
      = [Val.vstr "12345678900000", Val.vnull] ∧
    strReplaceDash "12-34-567-890-0000" = "12345678900000" :=
  ⟨((C4_pin_dash_stripping
      ⟨[("pin", ⟨Dtype.object, [Val.vstr "12-34-567-890-0000", Val.vnull]⟩)]⟩
      "12-34-567-890-0000" (by decide)).1).trans (by decide),
   (C4_pin_dash_stripping
      ⟨[("pin", ⟨Dtype.object, [Val.vstr "12-34-567-890-0000", Val.vnull]⟩)]⟩
      "12-34-567-890-0000" (by decide)).2.2⟩

/-- Externally visible I/O steps of the sales cache loader. -/
inductive IOEffect where
  | downloadRaw : IOEffect
  | readRawCsv : IOEffect
  | transformSales : IOEffect
  | writeArtifact : IOEffect
  | readArtifact : IOEffect
deriving DecidableEq, Repr

/-- The on-disk state the sales loader interacts with, over an abstract table
type `T` (file parsing is modelled as the identity, so a stored file IS the
table read back from it): the raw CSV cache and the transformed parquet
artifact, each with an existence flag. -/
structure SalesFs (T : Type) where
  rawExists : Bool
  rawFile : T
  artifactExists : Bool
  artifact : T
deriving DecidableEq, Repr

/-- `utils.extract_file_from_url` as called by
`sales.load_raw_cook_county_property_sales`: download (overwriting the raw
cache with the remote content) only when the file is absent or
`force_repull` is set, then read and return the file. -/
def extract_file_from_url {T : Type} (remote : T) (fs : SalesFs T)
    (force_repull : Bool) : T × SalesFs T × List IOEffect :=
  if !fs.rawExists || force_repull then
    (remote, { fs with rawExists := true, rawFile := remote },
      [IOEffect.downloadRaw, IOEffect.readRawCsv])
  else
    (fs.rawFile, fs, [IOEffect.readRawCsv])

/-- `sales.load_raw_cook_county_property_sales(root_dir, force_repull)`. -/
def load_raw_cook_county_property_sales {T : Type} (remote : T) (fs : SalesFs T)
    (force_repull : Bool) : T × SalesFs T × List IOEffect :=
  extract_file_from_url remote fs force_repull

/-- `sales.load_preprocessed_cook_county_property_sales(root_dir,
force_repull, force_remake)`: when the transformed artifact is absent or
`force_remake` is set, fetch the raw table, transform it
(`transform_cook_county_property_sales`, abstracted here as a function
parameter `transform` on the abstract table type) and persist the result;
otherwise read and return the persisted artifact directly. -/
def load_preprocessed_cook_county_property_sales {T : Type} (transform : T → T)
    (remote : T) (fs : SalesFs T) (force_repull force_remake : Bool) :
    T × SalesFs T × List IOEffect :=
  if !fs.artifactExists || force_remake then
    let step := load_raw_cook_county_property_sales remote fs force_repull
    let out := transform step.1
    (out, { step.2.1 with artifactExists := true, artifact := out },
      step.2.2 ++ [IOEffect.transformSales, IOEffect.writeArtifact])
  else
    (fs.artifact, fs, [IOEffect.readArtifact])

/-- C8: whenever the persisted transformed sales artifact exists and
`force_remake` is false, the sales cache loader performs no download and no
transform (its only I/O step is the artifact read), returns exactly the
stored artifact, leaves the file system untouched, and its result does not
depend on `force_repull`. -/
theorem C8_cache_loader_artifact_short_circuit {T : Type} (transform : T → T)
    (remote : T) (fs : SalesFs T) (r1 r2 : Bool)
    (h : fs.artifactExists = true) :
    load_preprocessed_cook_county_property_sales transform remote fs r1 false
        = (fs.artifact, fs, [IOEffect.readArtifact]) ∧
    load_preprocessed_cook_county_property_sales transform remote fs r2 false
        = load_preprocessed_cook_county_property_sales transform remote fs r1 false := by
  constructor
  · simp [load_preprocessed_cook_county_property_sales, h]
  · simp [load_preprocessed_cook_county_property_sales, h]

/-- C8 (witness): with an existing artifact holding table 42, the loader
returns 42 with a single artifact read, for both settings of
`force_repull`. -/
theorem C8_cache_loader_artifact_short_circuit_witness :
    load_preprocessed_cook_county_property_sales (fun t => t + 1) 7
        ⟨false, 0, true, 42⟩ true false
      = (42, ⟨false, 0, true, 42⟩, [IOEffect.readArtifact]) ∧
    load_preprocessed_cook_county_property_sales (fun t => t + 1) 7
        ⟨false, 0, true, 42⟩ false false
      = load_preprocessed_cook_county_property_sales (fun t => t + 1) 7
          ⟨false, 0, true, 42⟩ true false :=
  ⟨(C8_cache_loader_artifact_short_circuit (fun t : Nat => t + 1) 7
      ⟨false, 0, true, 42⟩ true false rfl).1,
   (C8_cache_loader_artifact_short_circuit (fun t : Nat => t + 1) 7
      ⟨false, 0, true, 42⟩ false true rfl).2⟩

/-- A column in the date-parsing model: either already datetime-typed
(carrying parsed data of abstract type `D`) or raw (unparsed data of
abstract type `R`). -/
inductive DtSeries (R D : Type) where
  | dtTyped : D → DtSeries R D
  | raw : R → DtSeries R D
deriving DecidableEq, Repr

def DtSeries.isDtTyped {R D : Type} : DtSeries R D → Bool
  | DtSeries.dtTyped _ => true
  | DtSeries.raw _ => false

/-- `utils.typeset_datetime_column(dt_series, dt_format)`: an
`is_datetime64_any_dtype` column is returned as is; otherwise, with a format
string the column is parsed with `pd.to_datetime(series, format=...)`
(modelled by the fallible `parseFmt`), and on any raised error the bare
`except:` falls back to unconstrained `pd.to_datetime(series)` (modelled by
the fallible `parseInfer`, whose own error propagates); with no format the
unconstrained parse is used directly. -/
def typeset_datetime_column {R D E : Type} (parseFmt : String → R → Except E D)
    (parseInfer : R → Except E D) (dt_series : DtSeries R D)
    (dt_format : Option String) : Except E (DtSeries R D) :=
  match dt_series with
  | DtSeries.dtTyped d => Except.ok (DtSeries.dtTyped d)
  | DtSeries.raw r =>
    match dt_format with
    | some f =>
      match parseFmt f r with
      | Except.ok d => Except.ok (DtSeries.dtTyped d)
      | Except.error _ => (parseInfer r).map DtSeries.dtTyped
    | none => (parseInfer r).map DtSeries.dtTyped

/-- C9: date parsing returns an already-datetime-typed series unchanged;
whenever it succeeds, its output is datetime-typed and re-parsing that
output returns it unchanged (idempotence, stated as: the re-parse of a
successful parse is the parse itself); and on a raw series with a supplied
format string it first tries the format-constrained parse and falls back to
unconstrained inference exactly when that parse raises. -/
theorem C9_datetime_parsing_fallback_idempotent {R D E : Type}
    (parseFmt : String → R → Except E D) (parseInfer : R → Except E D)
    (s : DtSeries R D) (fmt : Option String) (r : R) (f : String) :
    (s.isDtTyped = true →
      typeset_datetime_column parseFmt parseInfer s fmt = Except.ok s) ∧
    (typeset_datetime_column parseFmt parseInfer s fmt).bind
        (fun out => typeset_datetime_column parseFmt parseInfer out fmt)
      = typeset_datetime_column parseFmt parseInfer s fmt ∧
    typeset_datetime_column parseFmt parseInfer (DtSeries.raw r) (some f)
      = match parseFmt f r with
        | Except.ok d => Except.ok (DtSeries.dtTyped d)
        | Except.error _ => (parseInfer r).map DtSeries.dtTyped := by
  refine ⟨?_, ?_, ?_⟩
  · intro h
    cases s with
    | dtTyped d => rfl
    | raw x => simp [DtSeries.isDtTyped] at h
  · cases s with
    | dtTyped d => rfl
    | raw x =>
      cases fmt with
      | none =>
        cases hp : parseInfer x with
        | ok d => simp [typeset_datetime_column, hp, Except.map, Except.bind]
        | error e => simp [typeset_datetime_column, hp, Except.map, Except.bind]
      | some g =>
        cases hp : parseFmt g x with
        | ok d => simp [typeset_datetime_column, hp, Except.bind]
        | error e =>
          cases hq : parseInfer x with
          | ok d => simp [typeset_datetime_column, hp, hq, Except.map, Except.bind]
          | error e2 => simp [typeset_datetime_column, hp, hq, Except.map, Except.bind]
  · rfl

/-- C9 (witness): instances with concrete parse functions — a failing
format-constrained parse falling back to inference, an already-typed series
returned unchanged, and the re-parse of a successful parse. -/
theorem C9_datetime_parsing_fallback_idempotent_witness :
    typeset_datetime_column (fun _ (_ : Nat) => (Except.error 0 : Except Nat Nat))
        (fun n => Except.ok (n + 100)) (DtSeries.dtTyped 5) (some "fmt")
      = Except.ok (DtSeries.dtTyped 5) ∧
    (typeset_datetime_column (fun _ (_ : Nat) => (Except.error 0 : Except Nat Nat))
        (fun n => Except.ok (n + 100)) (DtSeries.raw 3) (some "fmt")).bind
        (fun out => typeset_datetime_column (fun _ _ => Except.error 0)
          (fun n => Except.ok (n + 100)) out (some "fmt"))
      = typeset_datetime_column (fun _ _ => Except.error 0)
          (fun n => Except.ok (n + 100)) (DtSeries.raw 3) (some "fmt") ∧
    typeset_datetime_column (fun _ (_ : Nat) => (Except.error 0 : Except Nat Nat))
        (fun n => Except.ok (n + 100)) (DtSeries.raw 3) (some "fmt")
      = match (fun (_ : String) (_ : Nat) => (Except.error 0 : Except Nat Nat)) "fmt" 3 with
        | Except.ok d => Except.ok (DtSeries.dtTyped d)
        | Except.error _ => ((fun n => Except.ok (n + 100)) 3).map DtSeries.dtTyped :=
  ⟨(C9_datetime_parsing_fallback_idempotent (fun _ _ => Except.error 0)
      (fun n => Except.ok (n + 100)) (DtSeries.dtTyped 5) (some "fmt") 3 "fmt").1 rfl,
   (C9_datetime_parsing_fallback_idempotent (fun _ _ => Except.error 0)
      (fun n => Except.ok (n + 100)) (DtSeries.raw 3) (some "fmt") 3 "fmt").2.1,
   (C9_datetime_parsing_fallback_idempotent (fun _ _ => Except.error 0)
      (fun n => Except.ok (n + 100)) (DtSeries.raw 3) (some "fmt") 3 "fmt").2.2⟩

/-- Horner-scheme decimal parse of a digit run: consumes the whole list and
fails on any non-digit character. -/
def parseDigits : List Char → Nat → Option Nat
  | [], acc => some acc
  | c :: rest, acc =>
    if c.isDigit then parseDigits rest (acc * 10 + (c.toNat - '0'.toNat)) else none

def parseNonemptyDigits (cs : List Char) : Option Nat :=
  if cs.isEmpty then none else parseDigits cs 0

/-- Python `int(s)` on a trimmed literal: an optional single sign followed by
a nonempty digit run; anything else (an embedded dash in particular) fails. -/
def parseIntPy (s : String) : Option Int :=
  match s.data with
  | [] => none
  | c :: rest =>
    if c = '-' then (parseNonemptyDigits rest).map (fun n => -(n : Int))
    else if c = '+' then (parseNonemptyDigits rest).map (fun n => (n : Int))
    else (parseNonemptyDigits (c :: rest)).map (fun n => (n : Int))

/-- Little-endian decimal digit characters of a natural number.  The
structural fuel argument (any fuel above the number suffices) keeps the
definition kernel-reducible for `decide`. -/
def natDigitsRevFuel : Nat → Nat → List Char
  | 0, _ => []
  | f + 1, n =>
    if n < 10 then [Nat.digitChar n]
    else Nat.digitChar (n % 10) :: natDigitsRevFuel f (n / 10)

def natDigitsRev (n : Nat) : List Char :=
  natDigitsRevFuel (n + 1) n

/-- Decimal rendering of a natural, then of an integer, as `str()` renders
an `Int64` value. -/
def natToString (n : Nat) : String :=
  String.mk (natDigitsRev n).reverse

def intToString : Int → String
  | Int.ofNat m => natToString m
  | Int.negSucc m => String.mk ('-' :: (natDigitsRev (m + 1)).reverse)

/-- `Series.str.zfill(w)` on one string: pad on the left with '0' up to
width `w`, with no special handling of a leading sign (pandas zfill differs
from Python str.zfill exactly there) and no truncation of longer strings. -/
def pandasZfill (w : Nat) (s : String) : String :=
  if w ≤ s.data.length then s
  else String.mk (List.replicate (w - s.data.length) '0' ++ s.data)

/-- One cell of `series.astype("Int64")`: nulls stay null, integer-valued
numerics are kept, booleans become 0/1, and strings are parsed as integer
literals — a non-parseable string raises. -/
def toInt64Cell : Val → Except String Val
  | Val.vnull => Except.ok Val.vnull
  | Val.vint n => Except.ok (Val.vint n)
  | Val.vbool b => Except.ok (Val.vint (if b then 1 else 0))
  | Val.vstr s =>
    match parseIntPy s with
    | some n => Except.ok (Val.vint n)
    | none => Except.error s

/-- Fallible cell-wise map over a column, propagating the first raised
error, as pandas `astype` does. -/
def exceptMapList (f : Val → Except String Val) : List Val → Except String (List Val)
  | [] => Except.ok []
  | v :: vs =>
    match f v with
    | Except.ok w =>
      match exceptMapList f vs with
      | Except.ok ws => Except.ok (w :: ws)
      | Except.error e => Except.error e
    | Except.error e => Except.error e

/-- `series.astype("Int64")` over the whole column. -/
def astypeInt64 (s : Series) : Except String Series :=
  match exceptMapList toInt64Cell s.vals with
  | Except.ok vals => Except.ok ⟨Dtype.int64Dt, vals⟩
  | Except.error e => Except.error e

/-- One cell of `series.astype("string")`: nulls stay null, other values are
rendered to their string form. -/
def astypeStringCell : Val → Val
  | Val.vnull => Val.vnull
  | Val.vint n => Val.vstr (intToString n)
  | Val.vbool b => Val.vstr (if b then "True" else "False")
  | Val.vstr s => Val.vstr s

def astypeString (s : Series) : Series :=
  ⟨Dtype.stringDt, s.vals.map astypeStringCell⟩

/-- One cell of `series.str.zfill(w)`: string cells are padded, nulls stay
null (the `.str` accessor skips them). -/
def strZfillCell (w : Nat) : Val → Val
  | Val.vstr s => Val.vstr (pandasZfill w s)
  | _ => Val.vnull

def strZfill (w : Nat) (s : Series) : Series :=
  ⟨Dtype.stringDt, s.vals.map (strZfillCell w)⟩

/-- `utils.standardize_mistakenly_int_parsed_categorical_series(series,
zerofill)`: `series.astype("Int64").astype("string")`, then `.str.zfill(
zerofill)` when a width is supplied, then `.astype("category")`. -/
def standardize_mistakenly_int_parsed_categorical_series (series : Series)
    (zerofill : Option Nat) : Except String Series :=
  match zerofill with
  | some w =>
    match astypeInt64 series with
    | Except.ok s1 => Except.ok (astypeCategory (strZfill w (astypeString s1)))
    | Except.error e => Except.error e
  | none =>
    match astypeInt64 series with
    | Except.ok s1 => Except.ok (astypeCategory (astypeString s1))
    | Except.error e => Except.error e

/-- Validity predicate for C7: a cell is null or a non-negative integer. -/
def isNonnegIntOrNull : Val → Bool
  | Val.vnull => true
  | Val.vint n => decide (0 ≤ n)
  | _ => false

/-- Validity predicate for C3: a cell is null or a non-negative integer with
at most `w` decimal digits. -/
def fitsWidth (w : Nat) : Val → Bool
  | Val.vnull => true
  | Val.vint n => decide (0 ≤ n) && decide (n.toNat < 10 ^ w)
  | _ => false

/-- Output-shape predicate for C3: a cell is null or a string of exactly `w`
decimal digits. -/
def isWidthDigitStringOrNull (w : Nat) : Val → Bool
  | Val.vnull => true
  | Val.vstr s => s.data.length == w && s.data.all Char.isDigit
  | _ => false

def isNullCell : Val → Bool
  | Val.vnull => true
  | _ => false

def isUnorderedCategoryDtype : Dtype → Bool
  | Dtype.categoryDt _ false => true
  | _ => false

/-- The values of a fallible column result (empty on error). -/
def resultVals : Except String Series → List Val
  | Except.ok s => s.vals
  | Except.error _ => []

/-- The dtype of a fallible column result (`object` on error). -/
def resultDtype : Except String Series → Dtype
  | Except.ok s => s.dtype
  | Except.error _ => Dtype.object

lemma digitChar_facts :
    ∀ d : Nat, d < 10 → (Nat.digitChar d).isDigit = true ∧
      (Nat.digitChar d).toNat - Char.toNat '0' = d := by
  decide

lemma isDigit_ne_dash {c : Char} (h : c.isDigit = true) : ¬(c = '-') := by
  intro hc
  subst hc
  exact absurd h (by decide)

lemma isDigit_ne_plus {c : Char} (h : c.isDigit = true) : ¬(c = '+') := by
  intro hc
  subst hc
  exact absurd h (by decide)

lemma parseDigits_append (A B : List Char) :
    ∀ acc : Nat, parseDigits (A ++ B) acc
      = (parseDigits A acc).bind (fun m => parseDigits B m) := by
  induction A with
  | nil => intro acc; rfl
  | cons c A ih =>
    intro acc
    by_cases h : c.isDigit = true
    · simp only [List.cons_append, parseDigits, h, if_true]
      exact ih _
    · simp only [List.cons_append, parseDigits, h, Bool.false_eq_true, if_false]
      rfl

lemma parseDigits_zeros (k : Nat) :
    parseDigits (List.replicate k '0') 0 = some 0 := by
  induction k with
  | zero => rfl
  | succ k ih =>
    have h0 : Char.isDigit '0' = true := by decide
    have h1 : 0 * 10 + (Char.toNat '0' - Char.toNat '0') = 0 := by decide
    simp only [List.replicate_succ, parseDigits, h0, if_true, h1]
    exact ih

lemma natDigitsRevFuel_spec :
    ∀ fuel n : Nat, n < fuel →
      (∀ acc : Nat, parseDigits (natDigitsRevFuel fuel n).reverse acc
        = some (acc * 10 ^ (natDigitsRevFuel fuel n).length + n)) ∧
      (∀ c ∈ natDigitsRevFuel fuel n, c.isDigit = true) ∧
      natDigitsRevFuel fuel n ≠ [] := by
  intro fuel
  induction fuel with
  | zero => intro n hn; exact absurd hn (Nat.not_lt_zero n)
  | succ f ih =>
    intro n hn
    by_cases h10 : n < 10
    · obtain ⟨hdig, hval⟩ := digitChar_facts n h10
      have hfuel : natDigitsRevFuel (f + 1) n = [Nat.digitChar n] := by
        simp [natDigitsRevFuel, h10]
      refine ⟨?_, ?_, by rw [hfuel]; simp⟩
      · intro acc
        rw [hfuel]
        simp only [List.reverse_singleton, List.length_singleton, parseDigits, hdig, if_true]
        rw [pow_one]
        rw [hval]
      · intro c hc
        rw [hfuel] at hc
        simp only [List.mem_singleton] at hc
        subst hc
        exact hdig
    · have hn0 : 0 < n := by omega
      have hdivf : n / 10 < f := by
        have := Nat.div_lt_self hn0 (by norm_num : 1 < 10)
        omega
      obtain ⟨ihp, ihd, ihne⟩ := ih (n / 10) hdivf
      have hmod : n % 10 < 10 := Nat.mod_lt n (by norm_num)
      obtain ⟨hdig, hval⟩ := digitChar_facts (n % 10) hmod
      have hfuel : natDigitsRevFuel (f + 1) n
          = Nat.digitChar (n % 10) :: natDigitsRevFuel f (n / 10) := by
        simp [natDigitsRevFuel, h10]
      refine ⟨?_, ?_, by rw [hfuel]; simp⟩
      · intro acc
        have hstep : parseDigits [Nat.digitChar (n % 10)]
              (acc * 10 ^ (natDigitsRevFuel f (n / 10)).length + n / 10)
            = some ((acc * 10 ^ (natDigitsRevFuel f (n / 10)).length + n / 10) * 10
                + n % 10) := by
          simp only [parseDigits, hdig, if_true]
          rw [hval]
        rw [hfuel, List.reverse_cons, parseDigits_append, ihp acc, Option.some_bind,
          hstep, List.length_cons]
        congr 1
        have hrec : 10 * (n / 10) + n % 10 = n := Nat.div_add_mod n 10
        calc (acc * 10 ^ (natDigitsRevFuel f (n / 10)).length + n / 10) * 10 + n % 10
            = acc * (10 ^ (natDigitsRevFuel f (n / 10)).length * 10)
                + (10 * (n / 10) + n % 10) := by ring
          _ = acc * 10 ^ ((natDigitsRevFuel f (n / 10)).length + 1) + n := by
              rw [hrec, pow_succ]
      · intro c hc
        rw [hfuel] at hc
        simp only [List.mem_cons] at hc
        rcases hc with hc | hc
        · subst hc; exact hdig
        · exact ihd c hc

lemma natDigitsRev_parse (n : Nat) :
    parseDigits (natDigitsRev n).reverse 0 = some n := by
  have h := ((natDigitsRevFuel_spec (n + 1) n (Nat.lt_succ_self n)).1) 0
  simpa using h

lemma natDigitsRev_all_digit (n : Nat) :
    ∀ c ∈ natDigitsRev n, c.isDigit = true :=
  (natDigitsRevFuel_spec (n + 1) n (Nat.lt_succ_self n)).2.1

lemma natDigitsRev_ne_nil (n : Nat) : natDigitsRev n ≠ [] :=
  (natDigitsRevFuel_spec (n + 1) n (Nat.lt_succ_self n)).2.2

lemma natDigitsRevFuel_length_le :
    ∀ fuel n w : Nat, n < fuel → 1 ≤ w → n < 10 ^ w →
      (natDigitsRevFuel fuel n).length ≤ w := by
  intro fuel
  induction fuel with
  | zero => intro n w hn; exact absurd hn (Nat.not_lt_zero n)
  | succ f ih =>
    intro n w hn hw hpow
    by_cases h10 : n < 10
    · simp only [natDigitsRevFuel, h10, if_true, List.length_singleton]
      exact hw
    · have hw2 : 2 ≤ w := by
        by_contra hcon
        have hw1 : w = 1 := by omega
        subst hw1
        rw [pow_one] at hpow
        omega
      have hdivf : n / 10 < f := by
        have := Nat.div_lt_self (by omega : 0 < n) (by norm_num : 1 < 10)
        omega
      have hdivpow : n / 10 < 10 ^ (w - 1) := by
        apply Nat.div_lt_of_lt_mul
        have hpw : 10 ^ (w - 1) * 10 = 10 ^ w := by
          rw [← pow_succ]
          congr 1
          omega
        omega
      have hlen := ih (n / 10) (w - 1) hdivf (by omega) hdivpow
      simp only [natDigitsRevFuel, h10, if_false, List.length_cons]
      omega

lemma parseIntPy_of_digits {l : List Char} {n : Nat} (hne : l ≠ [])
    (hd : ∀ c ∈ l, c.isDigit = true) (hn : parseDigits l 0 = some n) :
    parseIntPy (String.mk l) = some (n : Int) := by
  cases l with
  | nil => exact absurd rfl hne
  | cons c rest =>
    have hc : c.isDigit = true := hd c (List.mem_cons_self c rest)
    have h1 : ¬(c = '-') := isDigit_ne_dash hc
    have h2 : ¬(c = '+') := isDigit_ne_plus hc
    have hstep : parseIntPy (String.mk (c :: rest))
        = if c = '-' then (parseNonemptyDigits rest).map (fun m => -(m : Int))
          else if c = '+' then (parseNonemptyDigits rest).map (fun m => (m : Int))
          else (parseNonemptyDigits (c :: rest)).map (fun m => (m : Int)) := rfl
    rw [hstep, if_neg h1, if_neg h2]
    have hpn : parseNonemptyDigits (c :: rest) = parseDigits (c :: rest) 0 := rfl
    rw [hpn, hn]
    rfl

lemma parseIntPy_zfill_natToString (w n : Nat) :
    parseIntPy (pandasZfill w (natToString n)) = some (n : Int) := by
  have hrevne : (natDigitsRev n).reverse ≠ [] := by
    simpa using natDigitsRev_ne_nil n
  have hrevd : ∀ c ∈ (natDigitsRev n).reverse, c.isDigit = true := by
    intro c hc
    exact natDigitsRev_all_digit n c (List.mem_reverse.mp hc)
  by_cases hle : w ≤ (natToString n).data.length
  · rw [pandasZfill, if_pos hle]
    exact parseIntPy_of_digits hrevne hrevd (natDigitsRev_parse n)
  · rw [pandasZfill, if_neg hle]
    apply parseIntPy_of_digits
    · intro hcontra
      exact hrevne (List.append_eq_nil.mp hcontra).2
    · intro c hc
      rcases List.mem_append.mp hc with hmem | hmem
      · have hc0 : c = '0' := List.eq_of_mem_replicate hmem
        subst hc0
        decide
      · exact hrevd c hmem
    · rw [parseDigits_append, parseDigits_zeros, Option.some_bind]
      exact natDigitsRev_parse n

lemma toInt64Cell_roundtrip (w : Nat) {v : Val} (h : isNonnegIntOrNull v = true) :
    toInt64Cell (strZfillCell w (astypeStringCell v)) = Except.ok v := by
  cases v with
  | vnull => rfl
  | vint n =>
    have hn : 0 ≤ n := by simpa [isNonnegIntOrNull] using h
    obtain ⟨m, rfl⟩ := Int.eq_ofNat_of_zero_le hn
    simp only [astypeStringCell, strZfillCell, intToString, toInt64Cell,
      parseIntPy_zfill_natToString]
  | vstr s => simp [isNonnegIntOrNull] at h
  | vbool b => simp [isNonnegIntOrNull] at h

lemma exceptMapList_ok_of_id (f : Val → Except String Val) (l : List Val)
    (h : ∀ v ∈ l, f v = Except.ok v) : exceptMapList f l = Except.ok l := by
  induction l with
  | nil => rfl
  | cons v vs ih =>
    simp only [exceptMapList, h v (List.mem_cons_self v vs),
      ih (fun u hu => h u (List.mem_cons_of_mem v hu))]

lemma exceptMapList_map_ok (f : Val → Except String Val) (g : Val → Val) (l : List Val)
    (h : ∀ v ∈ l, f (g v) = Except.ok v) : exceptMapList f (l.map g) = Except.ok l := by
  induction l with
  | nil => rfl
  | cons v vs ih =>
    simp only [List.map_cons, exceptMapList, h v (List.mem_cons_self v vs),
      ih (fun u hu => h u (List.mem_cons_of_mem v hu))]

lemma standardize_ok_char (series : Series) (w : Nat)
    (h : series.vals.all isNonnegIntOrNull = true) :
    standardize_mistakenly_int_parsed_categorical_series series (some w)
      = Except.ok ⟨Dtype.categoryDt
          (sortedUnique (series.vals.map (fun v => strZfillCell w (astypeStringCell v))))
          false,
          series.vals.map (fun v => strZfillCell w (astypeStringCell v))⟩ := by
  have hvalid : ∀ v ∈ series.vals, isNonnegIntOrNull v = true := by
    intro v hv
    exact List.all_eq_true.mp h v hv
  have hint : ∀ v ∈ series.vals, toInt64Cell v = Except.ok v := by
    intro v hv
    cases v with
    | vnull => rfl
    | vint n => rfl
    | vstr s => simpa [isNonnegIntOrNull] using hvalid _ hv
    | vbool b => simpa [isNonnegIntOrNull] using hvalid _ hv
  have h1 : exceptMapList toInt64Cell series.vals = Except.ok series.vals :=
    exceptMapList_ok_of_id _ _ hint
  simp only [standardize_mistakenly_int_parsed_categorical_series, astypeInt64, h1]
  simp [astypeString, strZfill, astypeCategory, List.map_map, Function.comp_def]

lemma fitsWidth_imp_nonneg {w : Nat} {v : Val} (h : fitsWidth w v = true) :
    isNonnegIntOrNull v = true := by
  cases v with
  | vnull => rfl
  | vint n =>
    simp only [fitsWidth, Bool.and_eq_true, decide_eq_true_eq] at h
    simp [isNonnegIntOrNull, h.1]
  | vstr s => simp [fitsWidth] at h
  | vbool b => simp [fitsWidth] at h

lemma pandasZfill_width (w m : Nat) (hw : 1 ≤ w) (hm : m < 10 ^ w) :
    (pandasZfill w (natToString m)).data.length = w ∧
    (pandasZfill w (natToString m)).data.all Char.isDigit = true := by
  have hlen : (natToString m).data.length ≤ w := by
    have h1 : (natToString m).data.length = (natDigitsRev m).length := by
      simp [natToString, natDigitsRev]
    rw [h1]
    exact natDigitsRevFuel_length_le (m + 1) m w (Nat.lt_succ_self m) hw hm
  have hall : (natToString m).data.all Char.isDigit = true := by
    rw [List.all_eq_true]
    intro c hc
    exact natDigitsRev_all_digit m c (List.mem_reverse.mp hc)
  by_cases hle : w ≤ (natToString m).data.length
  · rw [pandasZfill, if_pos hle]
    exact ⟨Nat.le_antisymm hlen hle, hall⟩
  · rw [pandasZfill, if_neg hle]
    constructor
    · show (List.replicate (w - (natToString m).data.length) '0'
          ++ (natToString m).data).length = w
      rw [List.length_append, List.length_replicate]
      omega
    · show (List.replicate (w - (natToString m).data.length) '0'
          ++ (natToString m).data).all Char.isDigit = true
      rw [List.all_append, Bool.and_eq_true]
      refine ⟨?_, hall⟩
      rw [List.all_eq_true]
      intro c hc
      have hc0 : c = '0' := List.eq_of_mem_replicate hc
      subst hc0
      decide

/-- C3 (counterexample): `str.zfill` neither truncates nor handles signs, so
with width 4 the numeric-or-null column `[12345, -5]` produces the strings
"12345" (5 characters, not 4) and "00-5" (the pandas zfill pads the sign
inside the digits, so the result is not a digit string): not every non-null
output value is a digit string of exactly the requested width. -/
theorem C3_zero_fill_width_counterexample :
    resultVals (standardize_mistakenly_int_parsed_categorical_series
        ⟨Dtype.int64Dt, [Val.vint 12345, Val.vint (-5)]⟩ (some 4))
      = [Val.vstr "12345", Val.vstr "00-5"] ∧
    resultDtype (standardize_mistakenly_int_parsed_categorical_series
        ⟨Dtype.int64Dt, [Val.vint 12345, Val.vint (-5)]⟩ (some 4))
      = Dtype.categoryDt [Val.vstr "00-5", Val.vstr "12345"] false ∧
    ¬(("12345" : String).data.length = 4) ∧
    ¬(("00-5" : String).data.all Char.isDigit = true) := by
  refine ⟨by decide, by decide, by decide, by decide⟩

/-- C3 (amended): for every column whose cells are each null or a
non-negative integer of at most `w` digits (with `w ≥ 1`), zero-fill
identifier normalization with width `w` succeeds and produces an unordered
category column whose every non-null value is a digit string of exactly
width `w`, left-padded with zeros, and whose nulls are exactly the input
nulls, preserved in place (distinct from every category string). -/
theorem C3_zero_fill_width_amended (series : Series) (w : Nat) (hw : 1 ≤ w)
    (h : series.vals.all (fitsWidth w) = true) :
    Except.isOk (standardize_mistakenly_int_parsed_categorical_series series (some w))
      = true ∧
    isUnorderedCategoryDtype (resultDtype
        (standardize_mistakenly_int_parsed_categorical_series series (some w))) = true ∧
    (resultVals (standardize_mistakenly_int_parsed_categorical_series series (some w))).all
        (isWidthDigitStringOrNull w) = true ∧
    (resultVals (standardize_mistakenly_int_parsed_categorical_series series (some w))).map
        isNullCell
      = series.vals.map isNullCell := by
  have hfits : ∀ v ∈ series.vals, fitsWidth w v = true := by
    intro v hv
    exact List.all_eq_true.mp h v hv
  have hnn : series.vals.all isNonnegIntOrNull = true := by
    rw [List.all_eq_true]
    intro v hv
    exact fitsWidth_imp_nonneg (hfits v hv)
  have hchar := standardize_ok_char series w hnn
  rw [hchar]
  refine ⟨rfl, rfl, ?_, ?_⟩
  · show (series.vals.map (fun v => strZfillCell w (astypeStringCell v))).all
        (isWidthDigitStringOrNull w) = true
    rw [List.all_eq_true]
    intro u hu
    rw [List.mem_map] at hu
    obtain ⟨v, hv, rfl⟩ := hu
    cases v with
    | vnull => rfl
    | vint n =>
      have hf := hfits _ hv
      simp only [fitsWidth, Bool.and_eq_true, decide_eq_true_eq] at hf
      obtain ⟨m, rfl⟩ := Int.eq_ofNat_of_zero_le hf.1
      have hm : m < 10 ^ w := by simpa using hf.2
      obtain ⟨hlen, hdig⟩ := pandasZfill_width w m hw hm
      show isWidthDigitStringOrNull w
          (Val.vstr (pandasZfill w (natToString m))) = true
      simp [isWidthDigitStringOrNull, hlen, hdig]
    | vstr s => simpa [fitsWidth] using hfits _ hv
    | vbool b => simpa [fitsWidth] using hfits _ hv
  · show (series.vals.map (fun v => strZfillCell w (astypeStringCell v))).map isNullCell
        = series.vals.map isNullCell
    rw [List.map_map]
    apply List.map_congr_left
    intro v hv
    cases v with
    | vnull => rfl
    | vint n => rfl
    | vstr s => simpa [fitsWidth] using hfits _ hv
    | vbool b => simpa [fitsWidth] using hfits _ hv

/-- C3 (witness): width 3 on the column `[5, null, 123]` gives the unordered
category column `["005", null, "123"]`: exact-width digit strings with the
null preserved. -/
theorem C3_zero_fill_width_amended_witness :
    Except.isOk (standardize_mistakenly_int_parsed_categorical_series
        ⟨Dtype.int64Dt, [Val.vint 5, Val.vnull, Val.vint 123]⟩ (some 3)) = true ∧
    isUnorderedCategoryDtype (resultDtype
        (standardize_mistakenly_int_parsed_categorical_series
          ⟨Dtype.int64Dt, [Val.vint 5, Val.vnull, Val.vint 123]⟩ (some 3))) = true ∧
    (resultVals (standardize_mistakenly_int_parsed_categorical_series
        ⟨Dtype.int64Dt, [Val.vint 5, Val.vnull, Val.vint 123]⟩ (some 3))).all
        (isWidthDigitStringOrNull 3) = true ∧
    (resultVals (standardize_mistakenly_int_parsed_categorical_series
        ⟨Dtype.int64Dt, [Val.vint 5, Val.vnull, Val.vint 123]⟩ (some 3))).map isNullCell
      = [Val.vint 5, Val.vnull, Val.vint 123].map isNullCell :=
  C3_zero_fill_width_amended ⟨Dtype.int64Dt, [Val.vint 5, Val.vnull, Val.vint 123]⟩ 3
    (by decide) (by decide)

/-- C7: zero-fill identifier normalization is idempotent on valid input: for
every column whose cells are each null or a non-negative integer and every
width `w`, the first application succeeds, and re-applying the transform
with the same width to its own output yields exactly that output (stated
via bind: re-parsing the zero-padded digit strings recovers the original
integers, so the second pass re-renders the same strings). -/
theorem C7_zero_fill_idempotent (series : Series) (w : Nat)
    (h : series.vals.all isNonnegIntOrNull = true) :
    Except.isOk (standardize_mistakenly_int_parsed_categorical_series series (some w))
      = true ∧
    (standardize_mistakenly_int_parsed_categorical_series series (some w)).bind
        (fun out => standardize_mistakenly_int_parsed_categorical_series out (some w))
      = standardize_mistakenly_int_parsed_categorical_series series (some w) := by
  have hvalid : ∀ v ∈ series.vals, isNonnegIntOrNull v = true := by
    intro v hv
    exact List.all_eq_true.mp h v hv
  have hchar := standardize_ok_char series w h
  have hbind : ∀ (f : Series → Except String Series) (X : Series),
      (Except.ok X).bind f = f X := fun f X => rfl
  refine ⟨by rw [hchar]; rfl, ?_⟩
  rw [hchar, hbind]
  have h2 : exceptMapList toInt64Cell
      (series.vals.map (fun v => strZfillCell w (astypeStringCell v)))
      = Except.ok series.vals :=
    exceptMapList_map_ok _ _ _ (fun v hv => toInt64Cell_roundtrip w (hvalid v hv))
  simp only [standardize_mistakenly_int_parsed_categorical_series, astypeInt64, h2]
  simp [astypeString, strZfill, astypeCategory, List.map_map, Function.comp_def]

/-- C7 (witness): width 3 on the column `[7, null, 12345]` (the last value
wider than the fill width): the transform succeeds and re-applying it to
its own output is a no-op. -/
theorem C7_zero_fill_idempotent_witness :
    Except.isOk (standardize_mistakenly_int_parsed_categorical_series
        ⟨Dtype.int64Dt, [Val.vint 7, Val.vnull, Val.vint 12345]⟩ (some 3)) = true ∧
    (standardize_mistakenly_int_parsed_categorical_series
        ⟨Dtype.int64Dt, [Val.vint 7, Val.vnull, Val.vint 12345]⟩ (some 3)).bind
        (fun out => standardize_mistakenly_int_parsed_categorical_series out (some 3))
      = standardize_mistakenly_int_parsed_categorical_series
          ⟨Dtype.int64Dt, [Val.vint 7, Val.vnull, Val.vint 12345]⟩ (some 3) :=
  C7_zero_fill_idempotent ⟨Dtype.int64Dt, [Val.vint 7, Val.vnull, Val.vint 12345]⟩ 3
    (by decide)
